import Mathlib

/-!
Verification of the AI-Powered Excel Interview System against its
natural-language specification.

The repository's frontend (TypeScript/React) is embedded directly from the
source files under `frontend/`.  The backend (Python/FastAPI) is not part of
the source tree we were given; where a claim depends on backend behaviour the
corresponding definition is modelled from the specification text and marked
as such in its doc comment.

Strings are modelled as `List Char`; the JavaScript regular-expression
operations used by `parseInterviewSummary` (interview-results.tsx) are
translated to explicit backtracking-faithful scanning functions.
-/

set_option maxRecDepth 4096

namespace ExcelInterview

/-! ## Character and string helpers (JS semantics) -/

/-- JS `\s` / `String.trim` whitespace, restricted to the ASCII whitespace
characters that actually occur in the interview summaries. -/
def isWS (c : Char) : Bool :=
  c = ' ' || c = '\t' || c = '\n' || c = '\r' || c = '\x0b' || c = '\x0c'

def isDigitC (c : Char) : Bool := '0' ≤ c && c ≤ '9'

def isUpperC (c : Char) : Bool := 'A' ≤ c && c ≤ 'Z'

/-- Leading-whitespace removal (the greedy `\s*` of the regexes). -/
def dropWS (l : List Char) : List Char := l.dropWhile isWS

/-- JS `String.prototype.trim`: strip whitespace from both ends. -/
def trimWS (l : List Char) : List Char :=
  ((l.dropWhile isWS).reverse.dropWhile isWS).reverse

/-- Index of the first occurrence of `pat` as a contiguous sublist of `s`
(JS `String.prototype.indexOf` / the anchor search of `RegExp.exec`). -/
def findSub (pat : List Char) : List Char → Option Nat
  | [] => if pat = [] then some 0 else none
  | c :: cs =>
    if pat.isPrefixOf (c :: cs) then some 0
    else (findSub pat cs).map (· + 1)

/-- JS `String.prototype.split('\n')`. -/
def splitOnNl : List Char → List (List Char)
  | [] => [[]]
  | '\n' :: rest => [] :: splitOnNl rest
  | c :: rest =>
    match splitOnNl rest with
    | l :: ls => (c :: l) :: ls
    | [] => [[c]]

/-- JS `String.prototype.replace(pat, '')` for a one-character pattern:
remove the first occurrence only. -/
def removeFirst (t : Char) : List Char → List Char
  | [] => []
  | c :: rest => if c = t then rest else c :: removeFirst t rest

/-- Natural number denoted by a digit string (JS `parseInt` on an all-digit
capture). -/
def digitsToNat (l : List Char) : Nat :=
  l.foldl (fun acc c => acc * 10 + (c.toNat - '0'.toNat)) 0

/-! ## The summary parser of `interview-results.tsx` (`parseInterviewSummary`)

Each regular expression of the source is translated into a scanning function
with the exact backtracking semantics of JavaScript `RegExp`. -/

/-- Lazy field extraction,
`content.match(/Marker:\s*(.*?)(?=Stop:|$)/s)` of the source: find the first
occurrence of the marker, greedily skip whitespace, then capture lazily up to
the first occurrence of the stop marker (or to the end of the string). -/
def extractLazy (marker stop content : List Char) : Option (List Char) :=
  match findSub marker content with
  | none => none
  | some i =>
    let rest := dropWS (content.drop (i + marker.length))
    match findSub stop rest with
    | some j => some (rest.take j)
    | none => some rest

/-- `/Score:\s*(\d+)\/10/` tried at one position: the literal `Score:`, then
greedy whitespace, then a non-empty digit run that must be immediately
followed by `/10`. -/
def scoreAt (s : List Char) : Option Nat :=
  if ("Score:".data).isPrefixOf s then
    let r := dropWS (s.drop 6)
    let d := r.takeWhile isDigitC
    if d ≠ [] && ("/10".data).isPrefixOf (r.drop d.length) then
      some (digitsToNat d)
    else none
  else none

/-- `content.match(/Score:\s*(\d+)\/10/)`: the regex engine tries every
position left to right and returns the first successful match. -/
def findScore : List Char → Option Nat
  | [] => none
  | c :: cs =>
    match scoreAt (c :: cs) with
    | some v => some v
    | none => findScore cs

/-- The section-header pattern `/(\d+\.\s+[A-Z\s&]+:)/` tried at one
position.  After the digits and the dot, `\s+[A-Z\s&]+` jointly consume a
maximal run of characters from the class `[A-Z\s&]` that must start with a
whitespace character, contain at least two characters, and be followed
immediately by `:`.  Returns the length of the matched header. -/
def headerAt (s : List Char) : Option Nat :=
  let d := s.takeWhile isDigitC
  if d = [] then none
  else
    match s.drop d.length with
    | '.' :: rest =>
      let u := rest.takeWhile (fun c => isUpperC c || isWS c || c = '&')
      match u with
      | [] => none
      | u0 :: _ =>
        if isWS u0 && 2 ≤ u.length &&
            (rest.drop u.length).take 1 = [':'] then
          some (d.length + 1 + u.length + 1)
        else none
    | _ => none

/-- Leftmost header match: index and length. -/
def findHeader : List Char → Option (Nat × Nat)
  | [] => none
  | c :: cs =>
    match headerAt (c :: cs) with
    | some len => some (0, len)
    | none => (findHeader cs).map (fun p => (p.1 + 1, p.2))

/-- `summary.split(/(\d+\.\s+[A-Z\s&]+:)/g)` with the capture group included
in the result, driven by fuel for structural termination (the fuel is the
string length, which bounds the number of matches). -/
def splitHeadersGo (fuel : Nat) (s : List Char) : List (List Char) :=
  match fuel with
  | 0 => [s]
  | fuel + 1 =>
    match findHeader s with
    | none => [s]
    | some (i, len) =>
      s.take i :: (s.drop i).take len :: splitHeadersGo fuel (s.drop (i + len))

def splitHeaders (s : List Char) : List (List Char) := splitHeadersGo s.length s

/-- The loop `for (let i = 1; i < questionSections.length; i += 2)` pairing
each captured header with the following content piece
(`questionSections[i + 1] || ''`). -/
def pairUp : List (List Char) → List (List Char × List Char)
  | [] => []
  | [h] => [(h, [])]
  | h :: c :: rest => (h, c) :: pairUp rest

/-- `questionType`: strip the leading `/^\d+\.\s+/` (when present) and remove
the first `:` — `replace(/^\d+\.\s+/, '').replace(':', '')`. -/
def stripTypeHeader (h : List Char) : List Char :=
  let d := h.takeWhile isDigitC
  let stripped :=
    if d = [] then h
    else
      match h.drop d.length with
      | '.' :: rest =>
        let w := rest.takeWhile isWS
        if w = [] then h else rest.drop w.length
      | _ => h
  removeFirst ':' stripped

structure ParsedQuestion where
  qtype : List Char
  question : List Char
  response : List Char
  score : Nat
  feedback : List Char
  deriving DecidableEq, Repr

/-- One iteration of the section loop body of `parseInterviewSummary`:
extract question, response, score and feedback from a section's content;
the section is kept only `if (questionType && questionMatch)`. -/
def parseSection (h content : List Char) : Option ParsedQuestion :=
  let qtype := stripTypeHeader h
  let questionMatch := extractLazy "Question:".data "Your Response:".data content
  match qtype, questionMatch with
  | [], _ => none
  | _, none => none
  | _, some q =>
    some
      { qtype := qtype
        question := trimWS q
        response := ((extractLazy "Your Response:".data "Score:".data content).map trimWS).getD []
        score := (findScore content).getD 0
        feedback := ((extractLazy "Feedback:".data "\n".data content).map trimWS).getD [] }

/-- The bullet-list group `(?:-.*?\n?)*` of
`/Strengths:\s*((?:-.*?\n?)*)/s`: each greedy iteration consumes a `-`; the
lazy `.*?` matches the empty string because nothing after it can fail, and
the optional `\n?` consumes a newline only when it immediately follows the
dash.  The star keeps iterating only while the next character is `-`. -/
def bulletRun : List Char → List Char
  | '-' :: '\n' :: rest => '-' :: '\n' :: bulletRun rest
  | '-' :: rest =>
    match rest with
    | '-' :: _ => '-' :: bulletRun rest
    | _ => ['-']
  | _ => []

/-- `summary.match(/Marker:\s*((?:-.*?\n?)*)/s)` followed by
`capture.split('\n').filter(line => line.trim().startsWith('-'))
        .map(line => line.replace('-', '').trim())`. -/
def parseBullets (marker summary : List Char) : List (List Char) :=
  match findSub marker summary with
  | none => []
  | some i =>
    let capture := bulletRun (dropWS (summary.drop (i + marker.length)))
    ((splitOnNl capture).filter
        (fun line => (trimWS line).take 1 = ['-'])).map
      (fun line => trimWS (removeFirst '-' line))

structure ParsedInterviewData where
  questions : List ParsedQuestion
  strengths : List (List Char)
  improvements : List (List Char)
  deriving DecidableEq, Repr

/-- `parseInterviewSummary` of `interview-results.tsx`: split the summary at
the numbered section headers, parse each section, and extract the strengths
and improvements bullet lists. -/
def parseInterviewSummary (summary : List Char) : ParsedInterviewData :=
  { questions :=
      ((pairUp ((splitHeaders summary).drop 1)).filterMap
        fun p => parseSection p.1 p.2)
    strengths := parseBullets "Strengths:".data summary
    improvements := parseBullets "Areas for Improvement:".data summary }

/-! ## Score bands (`interview-results.tsx` and `score-chart.tsx`)

Scores are JavaScript numbers; in the operating range of this application
(tenths of points between 0 and 10) they are exactly represented, so the
embedding uses `ℚ`. -/

/-- `getScoreLabel` of `interview-results.tsx`. -/
def getScoreLabel (score : ℚ) : String :=
  if score ≥ 8 then "Excellent"
  else if score ≥ 6 then "Good"
  else if score ≥ 4 then "Satisfactory"
  else "Needs Improvement"

/-- `getColor` of `score-chart.tsx`. -/
def getColor (score : ℚ) : String :=
  if score ≥ 8 then "#10b981"
  else if score ≥ 6 then "#f59e0b"
  else if score ≥ 4 then "#f97316"
  else "#ef4444"

/-- `getScoreColor` of `interview-results.tsx` (same thresholds). -/
def getScoreColor (score : ℚ) : String :=
  if score ≥ 8 then "text-green-600"
  else if score ≥ 6 then "text-yellow-600"
  else if score ≥ 4 then "text-orange-600"
  else "text-red-600"

/-! ## Progress computation (`interactive-interview.tsx`) -/

/-- `getStepProgress` of the interactive interview component.  The first
argument is the current step name; the body never consults it. -/
def getStepProgress (_currentStepName : String)
    (currentQuestion : ℚ := 1) (totalQuestions : ℚ := 6) : ℚ :=
  (currentQuestion / totalQuestions) * 100

/-! ## The API client (`lib/api.ts`, reproduced in the repository README) -/

structure ApiError where
  status : Nat
  message : String
  deriving DecidableEq, Repr

/-- The possible outcomes of `fetch` + `response.json()` as seen by
`api.request`: a response with its `ok` flag, status code and parsed body
(`none` when `response.json()` throws), or a thrown fetch (network error). -/
inductive FetchOutcome (β : Type) where
  | response (ok : Bool) (status : Nat) (body : Option β)
  | fail
  deriving DecidableEq, Repr

/-- `api.request` of `lib/api.ts`: a non-ok response throws
`ApiError(response.status, ...)`, which the catch block rethrows; any other
thrown error (network failure, JSON parse failure) is converted to
`ApiError(0, "Network error or server unavailable")`; an ok response with a
parsed body returns the body. -/
def apiRequest {β : Type} : FetchOutcome β → Except ApiError β
  | .fail => .error ⟨0, "Network error or server unavailable"⟩
  | .response ok status body =>
    if ok then
      match body with
      | some b => .ok b
      | none => .error ⟨0, "Network error or server unavailable"⟩
    else
      .error ⟨status, "HTTP error! status: " ++ toString status⟩

/-! ## The completion branch of `handleSubmitResponse`
(`interactive-interview.tsx`) -/

structure PropensityScore where
  score : ℚ
  rationale : String
  visual_indicator : String
  deriving DecidableEq, Repr

structure FrontFinalResults where
  company_name : String
  propensity_score : PropensityScore
  overall_summary : String
  deriving DecidableEq, Repr

/-- The snapshot returned by `processInterviewStep`, as consumed by
`handleSubmitResponse` (interface `InterviewStep`). -/
structure StepResult where
  is_complete : Bool
  human_rejected : Bool
  human_approval_bypassed : Bool
  rejection_reason : Option String
  final_results : Option FrontFinalResults
  deriving DecidableEq

/-- The toast issued by `handleSubmitResponse`. -/
inductive Toast where
  | evaluationRejected (description : String)
  | resultsGeneratedWithoutApproval
  | evaluationApproved
  | responseSubmitted
  deriving DecidableEq

/-- JS `x || fallback` for an optional string: `null`, `undefined` and the
empty string are falsy. -/
def strOrElse (x : Option String) (fallback : String) : String :=
  match x with
  | some s => if s = "" then fallback else s
  | none => fallback

/-- The state committed by `handleSubmitResponse`. -/
structure SubmitEffect where
  interviewComplete : Bool
  toast : Toast
  displayedResults : Option FrontFinalResults
  deriving DecidableEq

/-- The hard-coded fallback of `handleSubmitResponse`, used when the backend
returns a complete interview without `final_results`. -/
def fallbackResults : FrontFinalResults :=
  { company_name := "Excel Interview - Interactive"
    propensity_score :=
      { score := 15 / 2
        rationale := "Based on interactive interview responses"
        visual_indicator := "🟡 Good" }
    overall_summary := "Interactive interview completed successfully." }

/-- `handleSubmitResponse` of `interactive-interview.tsx`, completion logic:
on `is_complete` the component marks the interview complete, toasts according
to the approval flags (rejection first, then bypass, then approval), and
displays `final_results` when present or the fallback otherwise; on an
incomplete result it advances to the next question. -/
def handleSubmitResponse (r : StepResult) : SubmitEffect :=
  if r.is_complete then
    { interviewComplete := true
      toast :=
        if r.human_rejected then
          .evaluationRejected
            (strOrElse r.rejection_reason
              "Human reviewer did not approve the evaluation.")
        else if r.human_approval_bypassed then
          .resultsGeneratedWithoutApproval
        else
          .evaluationApproved
      displayedResults := some (r.final_results.getD fallbackResults) }
  else
    { interviewComplete := false
      toast := .responseSubmitted
      displayedResults := none }

/-! ## Step Sequencer -/

/-- Modelled from the spec: the Step Sequencer of
`Backend/app/workflows/Excel_Interview_workflow.py` is not under `src/`;
§4.1 fixes the ordered list `[intro, theory, practical, advanced, advanced2,
advanced3]` (the same six steps appear as `stepConfig` in
`interactive-interview.tsx`). -/
inductive QStep where
  | intro | theory | practical | advanced | advanced2 | advanced3
  deriving DecidableEq, Repr

instance : Fintype QStep :=
  ⟨⟨{.intro, .theory, .practical, .advanced, .advanced2, .advanced3}, by decide⟩,
    by intro x; cases x <;> decide⟩

/-- The fixed step order of §4.1. -/
def stepOrder : List QStep :=
  [.intro, .theory, .practical, .advanced, .advanced2, .advanced3]

/-- Modelled from the spec: `next_step(current_step)` of §4.1 — the step
following `current_step` in `stepOrder`, or `none` for the last step. -/
def nextStep : QStep → Option QStep
  | .intro => some .theory
  | .theory => some .practical
  | .practical => some .advanced
  | .advanced => some .advanced2
  | .advanced2 => some .advanced3
  | .advanced3 => none

/-- The keys of `stepConfig` in `interactive-interview.tsx`, in source
order. -/
def stepConfigKeys : List String :=
  ["intro", "theory", "practical", "advanced", "advanced2", "advanced3"]

/-- The wire name of each question step. -/
def stepName : QStep → String
  | .intro => "intro"
  | .theory => "theory"
  | .practical => "practical"
  | .advanced => "advanced"
  | .advanced2 => "advanced2"
  | .advanced3 => "advanced3"

/-- The step sequence a session visits when started at `s`, with fuel for
structural termination. -/
def trajectoryGo (fuel : Nat) (s : QStep) : List QStep :=
  match fuel with
  | 0 => [s]
  | fuel + 1 =>
    match nextStep s with
    | none => [s]
    | some s' => s :: trajectoryGo fuel s'

def trajectory (s : QStep) : List QStep := trajectoryGo 6 s

/-! ## Human-Approval Gate -/

/-- Python `str.strip().lower()` over the ASCII range used by approval
payloads, as in the `workflow_human_approval_step` snippet of the
repository README
(`response_event.response.strip().lower() == "yes"`). -/
def pyLowerChar (c : Char) : Char :=
  if isUpperC c then Char.ofNat (c.toNat + 32) else c

def stripLower (payload : List Char) : List Char :=
  (trimWS payload).map pyLowerChar

inductive GateOutcomeKind where
  | approved | rejected | bypassed
  deriving DecidableEq, Repr

structure GateOutcome where
  outcome : GateOutcomeKind
  bypassed : Bool
  rejection_reason : Option (List Char)
  deriving DecidableEq, Repr

/-- The approval signal as delivered to the gate: an event carrying the
reviewer's decision payload, or a signal-source fault. -/
inductive GateSignal where
  | event (payload : List Char)
  | fault
  deriving DecidableEq, Repr

/-- Modelled from the spec: `await_approval` of §4.3 — the workflow code of
`Backend/app/workflows/Excel_Interview_workflow.py` is not under `src/`.
A decision payload whose stripped, lowercased text equals `yes` (the
comparison shown in the README's `workflow_human_approval_step` snippet)
yields `approved`; any other payload yields `rejected` with the reason
captured from the event payload; a signal-source fault yields `bypassed`
with `bypassed = true` and no rejection reason (the fail-open policy). -/
def awaitApproval : GateSignal → GateOutcome
  | .event payload =>
    if stripLower payload = "yes".data then
      { outcome := .approved, bypassed := false, rejection_reason := none }
    else
      { outcome := .rejected, bypassed := false,
        rejection_reason := some payload }
  | .fault =>
    { outcome := .bypassed, bypassed := true, rejection_reason := none }

/-! ## Evaluation Aggregator -/

/-- One per-step evaluation (§3 `evaluations` entry). -/
structure Evaluation where
  score : ℚ
  feedback : List Char
  strengths : List (List Char)
  improvements : List (List Char)
  deriving DecidableEq

/-- A complete set of step evaluations: one entry per interview step. -/
def Evaluations : Type := QStep → Evaluation

/-- Modelled from the spec: the skill dimension each step feeds (§4.2:
intro steps feed communication; theory → theoretical; practical →
practical; advanced variants → advanced). -/
def dimTheory (e : Evaluations) : ℚ := (e .theory).score
def dimPractical (e : Evaluations) : ℚ := (e .practical).score
def dimAdvanced (e : Evaluations) : ℚ :=
  ((e .advanced).score + (e .advanced2).score + (e .advanced3).score) / 3
def dimComm (e : Evaluations) : ℚ := (e .intro).score

def clamp010 (x : ℚ) : ℚ := max 0 (min x 10)

/-- Round to one decimal place. -/
def roundTo1 (x : ℚ) : ℚ := (round (10 * x) : ℤ) / 10

/-- Modelled from the spec: the weighted propensity score of §4.2 — the
Evaluation Aggregator of the backend is not under `src/`.  Weights:
theoretical knowledge 25 %, practical application 40 %, advanced skills
20 %, communication/problem-solving 15 % (the same table appears in the
backend README, "Skill Areas (Weighted)"); the weighted sum is clamped to
[0, 10] and rounded to one decimal. -/
def aggregateScore (e : Evaluations) : ℚ :=
  roundTo1 (clamp010
    (25 / 100 * dimTheory e + 40 / 100 * dimPractical e +
      20 / 100 * dimAdvanced e + 15 / 100 * dimComm e))

/-! ## Interview Session State Machine -/

/-- Modelled from the spec: the `current_step` enum of §3. -/
inductive Phase where
  | step (q : QStep)
  | evaluating
  | awaiting_approval
  | complete
  | rejected
  deriving DecidableEq, Repr

/-- Modelled from the spec: the committed `final_results` (§3, §8).  For a
rejected session the record carries no propensity score (§8: "for
`rejected`, `propensity_score` is not committed"). -/
structure EngineFinal where
  propensity_score : Option ℚ
  overall_summary : List Char
  deriving DecidableEq

/-- Modelled from the spec: the per-conversation `InterviewSession` of §3,
restricted to the fields the claims are about. -/
structure Session where
  current_step : Phase
  current_question_index : Nat
  total_questions : Nat
  qa_steps : List QStep
  human_approval : Option GateOutcome
  rejection_reason : Option (List Char)
  final_results : Option EngineFinal
  deriving DecidableEq

/-- Modelled from the spec: session creation (§4.4 `(none) → intro`, §6
`create_session`): the session starts at the intro step with question index
1 and the fixed total of 6 questions. -/
def initSession : Session :=
  { current_step := .step .intro
    current_question_index := 1
    total_questions := 6
    qa_steps := []
    human_approval := none
    rejection_reason := none
    final_results := none }

/-- Modelled from the spec: the response of `create_session` (§6):
`{conversation_id, first_question, current_step, total_questions = 6}`. -/
structure CreateSessionResponse where
  conversation_id : List Char
  first_question : List Char
  current_step : Phase
  total_questions : Nat
  deriving DecidableEq

def createSession (conversationId firstQuestion : List Char) :
    CreateSessionResponse :=
  { conversation_id := conversationId
    first_question := firstQuestion
    current_step := initSession.current_step
    total_questions := initSession.total_questions }

/-- Modelled from the spec: the transitions of §4.4.  Question/evaluation
text generation is a collaborator, so the generated texts and scores appear
as transition parameters. -/
inductive Trans : Session → Session → Prop where
  | submit (s : Session) (q : QStep) :
      s.current_step = .step q →
      Trans s
        { s with
          current_step :=
            match nextStep q with
            | some q' => .step q'
            | none => .evaluating
          current_question_index := s.current_question_index + 1
          qa_steps := s.qa_steps ++ [q] }
  | evalDone (s : Session) :
      s.current_step = .evaluating →
      Trans s { s with current_step := .awaiting_approval }
  | approve (s : Session) (g : GateOutcome) (score : ℚ) (summary : List Char) :
      s.current_step = .awaiting_approval →
      (g.outcome = .approved ∨ g.outcome = .bypassed) →
      Trans s
        { s with
          current_step := .complete
          human_approval := some g
          final_results :=
            some { propensity_score := some score, overall_summary := summary } }
  | reject (s : Session) (g : GateOutcome) (reason summary : List Char) :
      s.current_step = .awaiting_approval →
      g.outcome = .rejected →
      g.rejection_reason = some reason →
      Trans s
        { s with
          current_step := .rejected
          human_approval := some g
          rejection_reason := some reason
          final_results :=
            some { propensity_score := none, overall_summary := summary } }

/-- Sessions reachable from creation through the state machine. -/
inductive Reachable : Session → Prop where
  | init : Reachable initSession
  | trans {s s' : Session} : Reachable s → Trans s s' → Reachable s'

/-! ## The summary builder (contract format of §4.2) -/

/-- One section of the overall summary, as the backend builds it. -/
structure SummarySection where
  label : List Char
  question : List Char
  response : List Char
  score : Nat
  feedback : List Char
  deriving DecidableEq

/-- Modelled from the spec: the `overall_summary` builder of the backend
Evaluation Aggregator is not under `src/`; §4.2 fixes its contract — one
labeled section per step with fields in the order Question / Your Response /
Score / Feedback, followed by `Strengths:` and `Areas for Improvement:`
bullet lists. -/
def buildSection (idx : Nat) (sec : SummarySection) : List Char :=
  (toString idx).data ++ ". ".data ++ sec.label ++ ":\n".data ++
  "Question: ".data ++ sec.question ++ "\n".data ++
  "Your Response: ".data ++ sec.response ++ "\n".data ++
  "Score: ".data ++ (toString sec.score).data ++ "/10\n".data ++
  "Feedback: ".data ++ sec.feedback ++ "\n\n".data

def buildBullets (items : List (List Char)) : List Char :=
  items.foldr (fun it acc => "- ".data ++ it ++ "\n".data ++ acc) []

def buildSummary (sections : List SummarySection)
    (strengths improvements : List (List Char)) : List Char :=
  (((List.enumFrom 1 sections).map fun p => buildSection p.1 p.2).foldr
      (· ++ ·) []) ++
  "Strengths:\n".data ++ buildBullets strengths ++ "\n".data ++
  "Areas for Improvement:\n".data ++ buildBullets improvements

/-! ## Theorems -/

/-- Claim C7: `next_step` follows the fixed ordered list
`[intro, theory, practical, advanced, advanced2, advanced3]`: for each step
it returns the immediately following step, and returns `none` exactly when
the input is `advanced3`; iterating from `intro` visits every step in this
total order with no repetition and no omission. -/
theorem C7_nextStep_fixed_order :
    (∀ i : Fin 5, (stepOrder[(i : Nat)]?).bind nextStep =
      stepOrder[(i : Nat) + 1]?) ∧
    (∀ s : QStep, nextStep s = none ↔ s = .advanced3) ∧
    trajectory .intro = stepOrder ∧
    stepOrder.Nodup ∧
    (∀ s : QStep, s ∈ stepOrder) ∧
    stepOrder.map stepName = stepConfigKeys := by
  decide

/-- Claim C6: `total_questions` equals the fixed constant 6 for the
session's entire lifetime, and `create_session` returns
`total_questions = 6`. -/
theorem C6_total_questions_constant :
    (∀ cid fq : List Char, (createSession cid fq).total_questions = 6) ∧
    (∀ s : Session, Reachable s → s.total_questions = 6) := by
  refine ⟨fun _ _ => rfl, fun s hs => ?_⟩
  induction hs with
  | init => rfl
  | trans _ t ih => cases t <;> exact ih

theorem C6_witness :
    (createSession "c1".data "Welcome".data).total_questions = 6 ∧
    initSession.total_questions = 6 :=
  ⟨C6_total_questions_constant.1 "c1".data "Welcome".data,
    C6_total_questions_constant.2 initSession Reachable.init⟩

/-- Claim C2: for scores in [0, 10] the visual indicator label follows the
fixed bands of `getScoreLabel`, and `getColor` of the score chart uses the
matching 8/6/4 thresholds. -/
theorem C2_score_bands (s : ℚ) (_h0 : 0 ≤ s) (_h10 : s ≤ 10) :
    (8 ≤ s → getScoreLabel s = "Excellent" ∧ getColor s = "#10b981") ∧
    (6 ≤ s → s < 8 → getScoreLabel s = "Good" ∧ getColor s = "#f59e0b") ∧
    (4 ≤ s → s < 6 → getScoreLabel s = "Satisfactory" ∧
      getColor s = "#f97316") ∧
    (s < 4 → getScoreLabel s = "Needs Improvement" ∧
      getColor s = "#ef4444") := by
  refine ⟨fun h8 => ?_, fun h6 h8 => ?_, fun h4 h6 => ?_, fun h4 => ?_⟩ <;>
    constructor <;>
      simp only [getScoreLabel, getColor] <;>
        split_ifs <;> first | rfl | linarith

theorem C2_witness :
    (0 : ℚ) ≤ 7 ∧ (7 : ℚ) ≤ 10 ∧
    getScoreLabel 7 = "Good" ∧ getColor 7 = "#f59e0b" := by
  have h := (C2_score_bands 7 (by norm_num) (by norm_num)).2.1
    (by norm_num) (by norm_num)
  exact ⟨by norm_num, by norm_num, h.1, h.2⟩

/-- Claim C10: `getStepProgress` ignores its step-name argument — two runs
with different step names but the same counters produce the same progress,
which equals `(currentQuestion / totalQuestions) * 100`. -/
theorem C10_progress_noninterference (s1 s2 : String) (q t : ℚ) :
    getStepProgress s1 q t = getStepProgress s2 q t ∧
    getStepProgress s1 q t = (q / t) * 100 :=
  ⟨rfl, rfl⟩

/-- Claim C9: every call to `api.request` either returns the parsed JSON
body of an ok response or produces an `ApiError`: a non-ok response yields
`ApiError` with that response's status, any other failure (network error,
thrown fetch, JSON parse failure) yields `ApiError` with status 0, no other
exception type escapes (the codomain is `Except ApiError`), and a non-ok
response body is never returned. -/
theorem C9_apiRequest_errors {β : Type} (f : FetchOutcome β) :
    (∀ b, apiRequest f = .ok b → ∃ s, f = .response true s (some b)) ∧
    (∀ ok s body, f = .response ok s body → ok = false →
      apiRequest f = .error ⟨s, "HTTP error! status: " ++ toString s⟩) ∧
    (f = .fail →
      apiRequest f = .error ⟨0, "Network error or server unavailable"⟩) ∧
    (∀ s, f = .response true s none →
      apiRequest f = .error ⟨0, "Network error or server unavailable"⟩) ∧
    (∀ e, apiRequest f = .error e →
      e.status = 0 ∨ ∃ body, f = .response false e.status body) := by
  obtain ok | _ := f
  case response status body =>
    cases ok
    · simp [apiRequest]
    · cases body <;> simp [apiRequest]
  case fail =>
    simp [apiRequest]

theorem C9_witness :
    apiRequest (.response false 404 none : FetchOutcome Nat) =
      .error ⟨404, "HTTP error! status: 404"⟩ ∧
    apiRequest (.fail : FetchOutcome Nat) =
      .error ⟨0, "Network error or server unavailable"⟩ ∧
    apiRequest (.response true 200 (some 5) : FetchOutcome Nat) = .ok 5 :=
  ⟨(C9_apiRequest_errors (.response false 404 none)).2.1 false 404 none rfl
      rfl,
    (C9_apiRequest_errors (.fail : FetchOutcome Nat)).2.2.1 rfl,
    rfl⟩

/-- Claim C4: the Approval Gate outcome is `approved` exactly when the
trimmed, lowercased decision payload equals the affirmative token `yes`;
any other payload yields `rejected`; a signal-source fault yields `bypassed`
with `bypassed = true` and no `rejection_reason`. -/
theorem C4_approval_gate (p : List Char) :
    ((awaitApproval (.event p)).outcome = .approved ↔
      stripLower p = "yes".data) ∧
    ((awaitApproval (.event p)).outcome = .rejected ↔
      stripLower p ≠ "yes".data) ∧
    (awaitApproval (.event p)).bypassed = false ∧
    awaitApproval .fault =
      { outcome := .bypassed, bypassed := true, rejection_reason := none } := by
  by_cases h : stripLower p = "yes".data <;> simp [awaitApproval, h]

theorem C4_witness :
    (awaitApproval (.event "  YES ".data)).outcome = .approved ∧
    (awaitApproval (.event "no".data)).outcome = .rejected ∧
    awaitApproval .fault =
      { outcome := .bypassed, bypassed := true, rejection_reason := none } :=
  ⟨(C4_approval_gate "  YES ".data).1.mpr (by decide),
    (C4_approval_gate "no".data).2.1.mpr (by decide),
    (C4_approval_gate []).2.2.2⟩

theorem clamp010_nonneg (x : ℚ) : 0 ≤ clamp010 x := le_max_left 0 _

theorem clamp010_le_ten (x : ℚ) : clamp010 x ≤ 10 :=
  max_le (by norm_num) (min_le_right x 10)

theorem roundTo1_nonneg {x : ℚ} (h : 0 ≤ x) : 0 ≤ roundTo1 x := by
  unfold roundTo1
  have hk : (0 : ℤ) ≤ round (10 * x) := by
    rw [round_eq]
    exact Int.le_floor.mpr (by push_cast; linarith)
  have : (0 : ℚ) ≤ (round (10 * x) : ℤ) := by exact_mod_cast hk
  linarith

theorem roundTo1_le_ten {x : ℚ} (h : x ≤ 10) : roundTo1 x ≤ 10 := by
  unfold roundTo1
  have hk : round (10 * x) ≤ (100 : ℤ) := by
    rw [round_eq]
    have : ⌊10 * x + 1 / 2⌋ < (101 : ℤ) :=
      Int.floor_lt.mpr (by push_cast; linarith)
    omega
  have : ((round (10 * x) : ℤ) : ℚ) ≤ 100 := by exact_mod_cast hk
  linarith

/-- Claim C1: the aggregated final score equals the weighted sum of the four
skill-dimension scores with fixed weights — theoretical knowledge 25 %,
practical application 40 %, advanced skills 20 %,
communication/problem-solving 15 % — clamped to [0, 10] and rounded to one
decimal; consequently it always lies in [0, 10] and is a multiple of one
tenth. -/
theorem C1_weighted_aggregate (e : Evaluations) :
    aggregateScore e =
      roundTo1 (clamp010
        (25 / 100 * dimTheory e + 40 / 100 * dimPractical e +
          20 / 100 * dimAdvanced e + 15 / 100 * dimComm e)) ∧
    0 ≤ aggregateScore e ∧ aggregateScore e ≤ 10 ∧
    ∃ k : ℤ, aggregateScore e = (k : ℚ) / 10 := by
  refine ⟨rfl, ?_, ?_, ⟨round (10 * clamp010
    (25 / 100 * dimTheory e + 40 / 100 * dimPractical e +
      20 / 100 * dimAdvanced e + 15 / 100 * dimComm e)), rfl⟩⟩
  · exact roundTo1_nonneg (clamp010_nonneg _)
  · exact roundTo1_le_ten (clamp010_le_ten _)

/-- The terminal-results invariant of the session state machine (§3, §8). -/
def Inv (s : Session) : Prop :=
  (s.final_results.isSome ↔
    (s.current_step = .complete ∨ s.current_step = .rejected)) ∧
  (s.current_step = .rejected →
    (∀ fr, s.final_results = some fr → fr.propensity_score = none) ∧
    s.rejection_reason.isSome)

theorem inv_init : Inv initSession := by
  constructor <;> simp [initSession]

theorem inv_preserved {s s' : Session} (h : Inv s) (t : Trans s s') :
    Inv s' := by
  cases t with
  | submit q hq =>
    have hfin : s.final_results = none := by
      by_contra hne
      have hsome : s.final_results.isSome := Option.ne_none_iff_isSome.mp hne
      rcases h.1.mp hsome with hc | hc <;> rw [hq] at hc <;> cases hc
    cases hnq : nextStep q <;> constructor <;> simp [hfin, hnq]
  | evalDone hq =>
    have hfin : s.final_results = none := by
      by_contra hne
      have hsome : s.final_results.isSome := Option.ne_none_iff_isSome.mp hne
      rcases h.1.mp hsome with hc | hc <;> rw [hq] at hc <;> cases hc
    constructor <;> simp [hfin]
  | approve g sc summ hq hg =>
    constructor <;> simp
  | reject g reason summ hq hg hr =>
    refine ⟨by simp, fun _ => ⟨fun fr hfr => ?_, by simp⟩⟩
    have : { propensity_score := none,
             overall_summary := summ : EngineFinal } = fr := by
      simpa using hfr
    rw [← this]

theorem reachable_inv {s : Session} (hs : Reachable s) : Inv s := by
  induction hs with
  | init => exact inv_init
  | trans _ t ih => exact inv_preserved ih t

/-- A complete-and-rejected snapshot carrying no `final_results`, as the
backend reports a rejected evaluation to the frontend. -/
def rejectedNoResults : StepResult :=
  { is_complete := true
    human_rejected := true
    human_approval_bypassed := false
    rejection_reason := some "Evaluation quality insufficient"
    final_results := none }

/-- Claim C3, counterexample: for a rejected terminal snapshot without
backend `final_results`, `handleSubmitResponse` still displays a propensity
score — the hard-coded fallback with score 7.5 — so a rejected outcome is
not reported "instead of a score". -/
theorem C3_counterexample :
    (handleSubmitResponse rejectedNoResults).displayedResults =
      some fallbackResults ∧
    fallbackResults.propensity_score.score = 15 / 2 :=
  ⟨rfl, rfl⟩

/-- Claim C3, amended: `final_results` is present iff `current_step` is
`complete` or `rejected`, and for a rejected outcome no propensity score is
committed and the rejection reason is recorded and reported in the rejection
toast; however the frontend still displays a propensity score — the
backend's `final_results` when present, otherwise the fallback score 7.5. -/
theorem C3_terminal_results :
    (∀ s : Session, Reachable s →
      (s.final_results.isSome ↔
        (s.current_step = .complete ∨ s.current_step = .rejected)) ∧
      (s.current_step = .rejected →
        (∀ fr, s.final_results = some fr → fr.propensity_score = none) ∧
        s.rejection_reason.isSome)) ∧
    (∀ r : StepResult, r.is_complete = true → r.human_rejected = true →
      (handleSubmitResponse r).toast =
        .evaluationRejected (strOrElse r.rejection_reason
          "Human reviewer did not approve the evaluation.") ∧
      (handleSubmitResponse r).displayedResults =
        some (r.final_results.getD fallbackResults)) := by
  refine ⟨fun s hs => reachable_inv hs, fun r h1 h2 => ?_⟩
  constructor <;> simp [handleSubmitResponse, h1, h2]

theorem C3_witness :
    (initSession.final_results.isSome ↔
      (initSession.current_step = .complete ∨
        initSession.current_step = .rejected)) ∧
    (handleSubmitResponse rejectedNoResults).displayedResults =
      some (rejectedNoResults.final_results.getD fallbackResults) :=
  ⟨(C3_terminal_results.1 initSession Reachable.init).1,
    (C3_terminal_results.2 rejectedNoResults rfl rfl).2⟩

theorem findScore_eq_none {c : List Char}
    (h : ∀ i, i ≤ c.length → scoreAt (c.drop i) = none) :
    findScore c = none := by
  induction c with
  | nil => rfl
  | cons x xs ih =>
    have h0 : scoreAt (x :: xs) = none := by simpa using h 0 (by omega)
    have hrest : findScore xs = none := by
      refine ih fun i hi => ?_
      simpa [List.drop_succ_cons] using h (i + 1) (by simpa using hi)
    simp [findScore, h0, hrest]

theorem findScore_some_exists {c : List Char} {v : Nat}
    (h : findScore c = some v) : ∃ i, scoreAt (c.drop i) = some v := by
  induction c with
  | nil => simp [findScore] at h
  | cons x xs ih =>
    rw [findScore] at h
    rcases hx : scoreAt (x :: xs) with _ | w
    · rw [hx] at h
      obtain ⟨i, hi⟩ := ih h
      exact ⟨i + 1, by simpa [List.drop_succ_cons] using hi⟩
    · rw [hx] at h
      exact ⟨0, by simpa [hx] using h⟩

/-- Claim C8: `parseInterviewSummary` only extracts a section's score when
it appears as an integer matching `Score: n/10` — when no position of the
content matches that pattern (in particular when the score is written with
a decimal point) the parsed score defaults to 0, and a missing
`Your Response:` or `Feedback:` field defaults to the empty string. -/
theorem C8_integer_scores_only (h c : List Char) (pq : ParsedQuestion)
    (hp : parseSection h c = some pq) :
    ((∀ i, i ≤ c.length → scoreAt (c.drop i) = none) → pq.score = 0) ∧
    (pq.score ≠ 0 → ∃ i, (scoreAt (c.drop i)).isSome) ∧
    (findSub "Your Response:".data c = none → pq.response = []) ∧
    (findSub "Feedback:".data c = none → pq.feedback = []) := by
  simp only [parseSection] at hp
  split at hp
  · exact absurd hp (by simp)
  · exact absurd hp (by simp)
  · rw [Option.some.injEq] at hp
    subst hp
    refine ⟨fun hall => ?_, fun hnz => ?_, fun hm => ?_, fun hm => ?_⟩
    · simp [findScore_eq_none hall]
    · rcases hf : findScore c with _ | v
      · exact absurd (by simp [hf]) hnz
      · obtain ⟨i, hi⟩ := findScore_some_exists hf
        exact ⟨i, by simp [hi]⟩
    · simp [extractLazy, hm]
    · simp [extractLazy, hm]

def c8Content : List Char := "\nQuestion: What is XLOOKUP\nScore: 7.5/10\n".data

def c8Parsed : ParsedQuestion :=
  { qtype := "THEORY".data
    question := "What is XLOOKUP\nScore: 7.5/10".data
    response := []
    score := 0
    feedback := [] }

theorem C8_witness :
    c8Parsed.score = 0 ∧ c8Parsed.response = [] ∧ c8Parsed.feedback = [] := by
  have hp : parseSection "1. THEORY:".data c8Content = some c8Parsed := by
    decide
  have hc := C8_integer_scores_only "1. THEORY:".data c8Content c8Parsed hp
  exact ⟨hc.1 (by decide), hc.2.2.1 (by decide), hc.2.2.2 (by decide)⟩

/-- The structured data from which the backend builds `overall_summary` in
the contract format — the failing input for claim C5. -/
def c5Sections : List SummarySection :=
  [ { label := "INTRODUCTION".data
      question := "Tell me about your Excel background".data
      response := "I use Excel daily".data
      score := 8
      feedback := "Clear introduction".data },
    { label := "THEORY".data
      question := "What does VLOOKUP do".data
      response := "It looks up values".data
      score := 7
      feedback := "Good understanding".data } ]

def c5Strengths : List (List Char) := ["Clear communication".data]

def c5Improvements : List (List Char) := ["Formula depth".data]

def c5Summary : List Char := buildSummary c5Sections c5Strengths c5Improvements

/-- Claim C5 (code bug): parsing a summary built in the contract format
does recover every section's question, response, score and feedback, but
the strengths and improvements bullet lists come back as a single empty
string instead of the built lists — the lazy group in
`/Strengths:\s*((?:-.*?\n?)*)/s` captures only the first dash. -/
theorem C5_roundtrip_failure :
    (parseInterviewSummary c5Summary).questions =
      [ { qtype := "INTRODUCTION".data
          question := "Tell me about your Excel background".data
          response := "I use Excel daily".data
          score := 8
          feedback := "Clear introduction".data },
        { qtype := "THEORY".data
          question := "What does VLOOKUP do".data
          response := "It looks up values".data
          score := 7
          feedback := "Good understanding".data } ] ∧
    (parseInterviewSummary c5Summary).strengths = [[]] ∧
    (parseInterviewSummary c5Summary).improvements = [[]] ∧
    ([[]] : List (List Char)) ≠ c5Strengths ∧
    ([[]] : List (List Char)) ≠ c5Improvements := by
  decide

end ExcelInterview
